import Mathlib

/-
  Verification development for the adalog session-recording application.

  The definitions below are a shallow embedding of the Python sources:
    - src/adalog/adalog.py           (MainWindow: session state machine, tags, panels)
    - src/adalog/modalities/rec/audio.py   (Audio panel: queue/writer-thread recorder)
    - src/adalog/modalities/rec/osc.py     (Osc panel: OSC message recorder, store files)
    - src/adalog/modalities/meteo.py       (Meteo panel: polled space-weather CSV)

  Python strings are modelled as lists of characters, file-system effects as
  ghost lists of performed operations, and machine state as explicit records.
-/

namespace Adalog

/-- Python strings are modelled as lists of characters. -/
abbrev Str := List Char

/-- Characters removed by Python `str.strip()` with no argument
(ASCII whitespace as used by the sources). -/
def py_whitespace : List Char := [' ', '\t', '\n', '\r', '\x0b', '\x0c']

/-- Python `s.strip(chars)`: remove the given characters from both ends. -/
def py_strip_chars (cs : List Char) (s : Str) : Str :=
  ((s.dropWhile (fun c => cs.contains c)).reverse.dropWhile (fun c => cs.contains c)).reverse

/-- Python `s.strip()` (whitespace on both ends). -/
def py_strip (s : Str) : Str := py_strip_chars py_whitespace s

/-- Python `os.path.join(d, f)` for a relative component `f`: insert a `/`
separator unless `d` is empty or already ends with one. -/
def py_join (d f : Str) : Str :=
  if d = [] then f
  else if d.getLast? = some '/' then d ++ f
  else d ++ '/' :: f

/-- The ten decimal digit characters. -/
def digit_chars : List Char := ['0', '1', '2', '3', '4', '5', '6', '7', '8', '9']

/-- The decimal digit character for `n % 10`. -/
def digit_char (n : Nat) : Char := digit_chars.getD (n % 10) '9'

/-- Numeric value of a decimal digit character. -/
def char_val (c : Char) : Nat :=
  if c = '0' then 0 else if c = '1' then 1 else if c = '2' then 2
  else if c = '3' then 3 else if c = '4' then 4 else if c = '5' then 5
  else if c = '6' then 6 else if c = '7' then 7 else if c = '8' then 8 else 9

/-- Zero-padded fixed-width decimal rendering of `n` (Python `%0wd` for `n < 10^w`). -/
def pad : Nat → Nat → Str
  | 0, _ => []
  | w + 1, n => pad w (n / 10) ++ [digit_char (n % 10)]

/-- Numeric value of a decimal digit string. -/
def str_val (s : Str) : Nat := s.foldl (fun a c => 10 * a + char_val c) 0

lemma digit_char_mem (n : Nat) : digit_char n ∈ digit_chars := by
  unfold digit_char
  have h : n % 10 < 10 := Nat.mod_lt _ (by norm_num)
  set k := n % 10 with hk
  interval_cases k <;> decide

lemma char_val_digit_char (n : Nat) (h : n < 10) : char_val (digit_char n) = n := by
  unfold digit_char char_val
  have hk : n % 10 = n := Nat.mod_eq_of_lt h
  rw [hk]
  interval_cases n <;> decide

lemma pad_length (w n : Nat) : (pad w n).length = w := by
  induction w generalizing n with
  | zero => simp [pad]
  | succ w ih => simp [pad, ih]

lemma str_val_append_digit (s : Str) (c : Char) :
    str_val (s ++ [c]) = 10 * str_val s + char_val c := by
  simp [str_val, List.foldl_append]

lemma str_val_pad (w n : Nat) (h : n < 10 ^ w) : str_val (pad w n) = n := by
  induction w generalizing n with
  | zero =>
    have : n = 0 := by simpa using h
    simp [pad, str_val, this]
  | succ w ih =>
    have hdiv : n / 10 < 10 ^ w := by
      rw [Nat.div_lt_iff_lt_mul (by norm_num : 0 < 10)]
      calc n < 10 ^ (w + 1) := h
        _ = 10 ^ w * 10 := by ring
    have hmod : n % 10 < 10 := Nat.mod_lt _ (by norm_num)
    rw [pad, str_val_append_digit, ih _ hdiv, char_val_digit_char _ hmod]
    omega

lemma pad_inj (w n m : Nat) (hn : n < 10 ^ w) (hm : m < 10 ^ w)
    (he : pad w n = pad w m) : n = m := by
  have := congrArg str_val he
  rwa [str_val_pad _ _ hn, str_val_pad _ _ hm] at this

lemma mem_pad_digit (w n : Nat) (c : Char) (h : c ∈ pad w n) : c ∈ digit_chars := by
  induction w generalizing n with
  | zero => simp [pad] at h
  | succ w ih =>
    rw [pad, List.mem_append] at h
    rcases h with h | h
    · exact ih _ h
    · simp at h
      rw [h]
      exact digit_char_mem _

/-- A UTC wall-clock instant as produced by Python `datetime.utcnow()`:
calendar fields plus a microsecond component (sub-second resolution). -/
structure UTCTime where
  year : Nat
  month : Nat
  day : Nat
  hour : Nat
  minute : Nat
  second : Nat
  usec : Nat
deriving DecidableEq

/-- Field bounds guaranteed by Python `datetime` (weakened to the digit widths
used by `isoformat`, which is all the injectivity proof needs). -/
abbrev ValidUTC (t : UTCTime) : Prop :=
  t.year < 10 ^ 4 ∧ t.month < 10 ^ 2 ∧ t.day < 10 ^ 2 ∧ t.hour < 10 ^ 2 ∧
    t.minute < 10 ^ 2 ∧ t.second < 10 ^ 2 ∧ t.usec < 10 ^ 6

/-- Python `datetime.isoformat()`: `YYYY-MM-DDTHH:MM:SS` followed by
`.ffffff` exactly when the microsecond component is non-zero. -/
def iso_format (t : UTCTime) : Str :=
  pad 4 t.year ++ '-' :: pad 2 t.month ++ '-' :: pad 2 t.day ++
    'T' :: pad 2 t.hour ++ ':' :: pad 2 t.minute ++ ':' :: pad 2 t.second ++
    (if t.usec = 0 then [] else '.' :: pad 6 t.usec)

/-- Python `s.replace(a, b)` for single-character pattern and replacement. -/
def py_replace_char (a b : Char) (s : Str) : Str :=
  s.map (fun c => if c = a then b else c)

/-- The session-directory timestamp of `toggle_session`:
`datetime.utcnow().isoformat().replace(":", "-").replace(".", "-")`. -/
def session_stamp (t : UTCTime) : Str :=
  py_replace_char '.' '-' (py_replace_char ':' '-' (iso_format t))

lemma py_replace_char_pad (a b : Char) (w n : Nat) (ha : a ∉ digit_chars) :
    py_replace_char a b (pad w n) = pad w n := by
  unfold py_replace_char
  have h : ∀ c ∈ pad w n, (fun c => if c = a then b else c) c = c := by
    intro c hc
    have hd := mem_pad_digit w n c hc
    simp only
    rw [if_neg]
    intro he
    rw [he] at hd
    exact ha hd
  calc (pad w n).map (fun c => if c = a then b else c)
      = (pad w n).map id := List.map_congr_left h
    _ = pad w n := List.map_id _

lemma py_replace_char_nil (a b : Char) : py_replace_char a b [] = [] := rfl

lemma py_replace_char_append (a b : Char) (s r : Str) :
    py_replace_char a b (s ++ r) = py_replace_char a b s ++ py_replace_char a b r := by
  simp [py_replace_char]

lemma py_replace_char_cons (a b c : Char) (s : Str) :
    py_replace_char a b (c :: s) = (if c = a then b else c) :: py_replace_char a b s := by
  simp [py_replace_char]

lemma session_stamp_eq (t : UTCTime) :
    session_stamp t =
      pad 4 t.year ++ ('-' :: (pad 2 t.month ++ ('-' :: (pad 2 t.day ++
        ('T' :: (pad 2 t.hour ++ ('-' :: (pad 2 t.minute ++ ('-' :: (pad 2 t.second ++
        (if t.usec = 0 then [] else '-' :: pad 6 t.usec))))))))))) := by
  have hcolon : (':' : Char) ∉ digit_chars := by decide
  have hdot : ('.' : Char) ∉ digit_chars := by decide
  unfold session_stamp iso_format
  by_cases hu : t.usec = 0 <;>
    simp [hu, py_replace_char_append, py_replace_char_cons, py_replace_char_nil,
      show ∀ w n, py_replace_char ':' '-' (pad w n) = pad w n from
        fun w n => py_replace_char_pad ':' '-' w n hcolon,
      show ∀ w n, py_replace_char '.' '-' (pad w n) = pad w n from
        fun w n => py_replace_char_pad '.' '-' w n hdot]

lemma session_stamp_inj (t1 t2 : UTCTime) (h1 : ValidUTC t1) (h2 : ValidUTC t2)
    (he : session_stamp t1 = session_stamp t2) : t1 = t2 := by
  obtain ⟨hy1, hmo1, hd1, hh1, hmi1, hs1, hu1⟩ := h1
  obtain ⟨hy2, hmo2, hd2, hh2, hmi2, hs2, hu2⟩ := h2
  rw [session_stamp_eq, session_stamp_eq] at he
  obtain ⟨ey, he⟩ := List.append_inj he (by rw [pad_length, pad_length])
  injection he with _ he
  obtain ⟨emo, he⟩ := List.append_inj he (by rw [pad_length, pad_length])
  injection he with _ he
  obtain ⟨ed, he⟩ := List.append_inj he (by rw [pad_length, pad_length])
  injection he with _ he
  obtain ⟨eh, he⟩ := List.append_inj he (by rw [pad_length, pad_length])
  injection he with _ he
  obtain ⟨emi, he⟩ := List.append_inj he (by rw [pad_length, pad_length])
  injection he with _ he
  obtain ⟨es, he⟩ := List.append_inj he (by rw [pad_length, pad_length])
  have hy := pad_inj _ _ _ hy1 hy2 ey
  have hmo := pad_inj _ _ _ hmo1 hmo2 emo
  have hd := pad_inj _ _ _ hd1 hd2 ed
  have hh := pad_inj _ _ _ hh1 hh2 eh
  have hmi := pad_inj _ _ _ hmi1 hmi2 emi
  have hs := pad_inj _ _ _ hs1 hs2 es
  have hu : t1.usec = t2.usec := by
    by_cases c1 : t1.usec = 0 <;> by_cases c2 : t2.usec = 0 <;>
      simp [c1, c2] at he ⊢
    exact pad_inj _ _ _ hu1 hu2 he
  cases t1
  cases t2
  simp_all

/-- The longest suffix of `s` containing no `/` (read back from the reversed
string): the final path component. -/
def take_until_slash : Str → Str
  | [] => []
  | c :: cs => if c = '/' then [] else c :: take_until_slash cs

/-- Final `/`-separated component of a path. -/
def last_component (s : Str) : Str := (take_until_slash s.reverse).reverse

lemma take_until_slash_append (l r : Str) (hl : ∀ c ∈ l, c ≠ '/') :
    take_until_slash (l ++ '/' :: r) = l := by
  induction l with
  | nil => simp [take_until_slash]
  | cons c cs ih =>
    have hc : c ≠ '/' := hl c (by simp)
    have hstep : (c :: cs) ++ '/' :: r = c :: (cs ++ '/' :: r) := rfl
    rw [hstep, take_until_slash, if_neg hc, ih (fun x hx => hl x (by simp [hx]))]

lemma last_component_append (xs ys : Str) (hys : ∀ c ∈ ys, c ≠ '/') :
    last_component (xs ++ '/' :: ys) = ys := by
  unfold last_component
  rw [List.reverse_append, List.reverse_cons, List.append_assoc]
  have : (['/'] : Str) ++ xs.reverse = '/' :: xs.reverse := rfl
  rw [this, take_until_slash_append _ _
    (fun c hc => hys c (List.mem_reverse.mp hc)), List.reverse_reverse]

lemma digit_ne_slash (c : Char) (h : c ∈ digit_chars) : c ≠ '/' := by
  intro he
  rw [he] at h
  revert h
  decide

lemma session_stamp_no_slash (t : UTCTime) : ∀ c ∈ session_stamp t, c ≠ '/' := by
  intro c hc he
  subst he
  have hpad : ∀ w n, ('/' : Char) ∉ pad w n := by
    intro w n h
    have hmem := mem_pad_digit w n _ h
    revert hmem
    decide
  rw [session_stamp_eq] at hc
  by_cases hu : t.usec = 0 <;> simp [hu, hpad] at hc

/-- Session root path from `toggle_session`:
`os.path.join(os.path.join("sessions", user), timestamp)`. -/
def session_path (user : Str) (t : UTCTime) : Str :=
  py_join (py_join ("sessions").data user) (session_stamp t)

lemma session_path_split (u : Str) (t : UTCTime) (hu : u ≠ []) :
    ∃ pre, session_path u t = pre ++ '/' :: session_stamp t := by
  unfold session_path py_join
  rw [if_neg (by decide : ¬ ("sessions").data = []),
    if_neg (by decide : ¬ ("sessions").data.getLast? = some '/')]
  obtain ⟨c, rest, hrev⟩ : ∃ c rest, u.reverse = c :: rest := by
    cases h : u.reverse with
    | nil => exact absurd (by simpa using congrArg List.reverse h) hu
    | cons c rest => exact ⟨c, rest, rfl⟩
  have hu' : u = rest.reverse ++ [c] := by
    have := congrArg List.reverse hrev
    simpa using this
  have hne : ("sessions").data ++ '/' :: u ≠ [] := by simp
  rw [if_neg hne]
  have hlast : (("sessions").data ++ '/' :: u).getLast? = some c := by
    rw [hu']
    rw [show ("sessions").data ++ '/' :: (rest.reverse ++ [c]) =
      (("sessions").data ++ '/' :: rest.reverse) ++ [c] by simp]
    exact List.getLast?_concat _
  rw [hlast]
  by_cases hc : c = '/'
  · rw [if_pos (by rw [hc])]
    refine ⟨("sessions").data ++ '/' :: rest.reverse, ?_⟩
    rw [hu', hc]
    simp
  · rw [if_neg (by simpa using hc)]
    exact ⟨_, rfl⟩

lemma session_path_inj (u1 u2 : Str) (t1 t2 : UTCTime)
    (hv1 : ValidUTC t1) (hv2 : ValidUTC t2) (hu1 : u1 ≠ []) (hu2 : u2 ≠ [])
    (hne : t1 ≠ t2) : session_path u1 t1 ≠ session_path u2 t2 := by
  intro he
  obtain ⟨pre1, e1⟩ := session_path_split u1 t1 hu1
  obtain ⟨pre2, e2⟩ := session_path_split u2 t2 hu2
  have hlast := congrArg last_component he
  rw [e1, e2, last_component_append _ _ (session_stamp_no_slash t1),
    last_component_append _ _ (session_stamp_no_slash t2)] at hlast
  exact hne (session_stamp_inj t1 t2 hv1 hv2 hlast)

/-- A panel instance attached to the main window, abstracted to its identity
and which recording hooks it exposes (`hasattr` probing in the source). -/
structure PanelSpec where
  pid : Nat
  has_start : Bool
  has_stop : Bool
deriving DecidableEq

/-- State of `MainWindow` (src/adalog/adalog.py) relevant to the session
state machine, plus ghost fields logging the side effects performed:
directories passed to `os.makedirs`, rows appended to tags.csv,
`start_recording`/`stop_recording` invocations, and status-bar messages. -/
structure MainWindow where
  session_running : Bool
  user_field : Str
  tags : List Str
  current_session_dir : Option Str
  dock_widgets : List PanelSpec
  dirs_created : List Str
  tags_csv_writes : List (Str × List Str)
  start_calls : List (Nat × Str)
  stop_calls : List Nat
  status_messages : List Str
  chrono_running : Bool
deriving DecidableEq

/-- Status-bar message shown when a start is attempted with an empty user name. -/
def empty_user_msg : Str := ("Please enter a User Name before starting the session.").data

/-- MainWindow.save_tags_metadata: returns without writing unless a session is
running and `current_session_dir` is set; otherwise appends one
`(timestamp, tags)` row to `<current_session_dir>/tags.csv` (the row's
timestamp column is not modelled; the tag list snapshot is). -/
def save_tags_metadata (st : MainWindow) : MainWindow :=
  match st.session_running, st.current_session_dir with
  | true, some d =>
    {st with tags_csv_writes :=
      st.tags_csv_writes ++ [(py_join d (("tags.csv").data), st.tags)]}
  | _, _ => st

/-- MainWindow.toggle_session: blocks the start when the stripped user name is
empty; otherwise flips the state and on start creates the session directory,
persists the tags, starts the chronometer and fans `start_recording(session_dir)`
out to every `dock_widgets` entry exposing it; on stop it stops the chronometer
and fans `stop_recording()` out likewise. -/
def toggle_session (st : MainWindow) (t : UTCTime) : MainWindow :=
  if st.session_running = false ∧ py_strip st.user_field = [] then
    {st with status_messages := st.status_messages ++ [empty_user_msg]}
  else if st.session_running = false then
    let dir := session_path (py_strip st.user_field) t
    let st1 : MainWindow :=
      {st with session_running := true,
               dirs_created := st.dirs_created ++ [dir],
               current_session_dir := some dir}
    let st2 := save_tags_metadata st1
    {st2 with chrono_running := true,
              start_calls := st2.start_calls ++
                (st2.dock_widgets.filter (fun p => p.has_start)).map (fun p => (p.pid, dir))}
  else
    {st with session_running := false, chrono_running := false,
             stop_calls := st.stop_calls ++
               (st.dock_widgets.filter (fun p => p.has_stop)).map (fun p => p.pid)}

/-- MainWindow.add_panel: the source appends the freshly constructed panel
instance to `self.dock_widgets` twice (the `addDockWidget`/`append` block at
lines 288-289 of adalog.py is repeated verbatim at lines 296-297). -/
def add_panel (st : MainWindow) (p : PanelSpec) : MainWindow :=
  {st with dock_widgets := (st.dock_widgets ++ [p]) ++ [p]}

/-- MainWindow.add_tag_from_input: strips spaces and commas from the input,
appends the text to the in-memory tag list when new and non-empty, and calls
`save_tags_metadata` (which persists only while a session is running). -/
def add_tag_from_input (st : MainWindow) (input : Str) : MainWindow :=
  let text := py_strip_chars [' ', ','] input
  if text ≠ [] ∧ text ∉ st.tags then
    save_tags_metadata {st with tags := st.tags ++ [text]}
  else st

/-- MainWindow.remove_tag: removes the tag text when present and calls
`save_tags_metadata`. -/
def remove_tag (st : MainWindow) (tag_text : Str) : MainWindow :=
  if tag_text ∈ st.tags then
    save_tags_metadata {st with tags := st.tags.erase tag_text}
  else st

/-- A tag mutation issued from the UI. -/
inductive TagOp
  | add (s : Str)
  | remove (s : Str)
deriving DecidableEq

/-- Dispatch one tag operation to the handler it triggers. -/
def apply_tag_op (st : MainWindow) : TagOp → MainWindow
  | .add s => add_tag_from_input st s
  | .remove s => remove_tag st s

lemma save_tags_metadata_fields (st : MainWindow) :
    (save_tags_metadata st).session_running = st.session_running ∧
    (save_tags_metadata st).tags = st.tags ∧
    (save_tags_metadata st).current_session_dir = st.current_session_dir ∧
    (save_tags_metadata st).dirs_created = st.dirs_created ∧
    (save_tags_metadata st).dock_widgets = st.dock_widgets ∧
    (save_tags_metadata st).start_calls = st.start_calls := by
  rcases hr : st.session_running <;> rcases hd : st.current_session_dir <;>
    simp [save_tags_metadata, hr, hd]

lemma save_tags_metadata_idle (st : MainWindow) (h : st.session_running = false) :
    save_tags_metadata st = st := by
  unfold save_tags_metadata
  rw [h]

lemma apply_tag_op_idle_frame (st : MainWindow) (op : TagOp)
    (h : st.session_running = false) :
    (apply_tag_op st op).session_running = false ∧
    (apply_tag_op st op).tags_csv_writes = st.tags_csv_writes ∧
    (apply_tag_op st op).dirs_created = st.dirs_created := by
  cases op with
  | add s =>
    simp only [apply_tag_op, add_tag_from_input]
    split
    · rw [h]
      simp [save_tags_metadata]
    · exact ⟨h, rfl, rfl⟩
  | remove s =>
    simp only [apply_tag_op, remove_tag]
    split
    · rw [h]
      simp [save_tags_metadata]
    · exact ⟨h, rfl, rfl⟩

lemma tag_ops_idle_no_writes (ops : List TagOp) (st : MainWindow)
    (h : st.session_running = false) :
    (ops.foldl apply_tag_op st).session_running = false ∧
    (ops.foldl apply_tag_op st).tags_csv_writes = st.tags_csv_writes ∧
    (ops.foldl apply_tag_op st).dirs_created = st.dirs_created := by
  induction ops generalizing st with
  | nil => exact ⟨h, rfl, rfl⟩
  | cons op ops ih =>
    obtain ⟨h1, h2, h3⟩ := apply_tag_op_idle_frame st op h
    obtain ⟨g1, g2, g3⟩ := ih (apply_tag_op st op) h1
    refine ⟨?_, ?_, ?_⟩ <;> simp only [List.foldl_cons]
    · exact g1
    · rw [g2, h2]
    · rw [g3, h3]

/-- A panel as seen by the start/stop fan-out loop, with whether its hook
(`start_recording` or `stop_recording`) exists and whether invoking it raises. -/
structure FanPanel where
  pid : Nat
  has_hook : Bool
  raises : Bool
deriving DecidableEq

/-- The fan-out loop of `toggle_session`
(`for panel in self.dock_widgets: if hasattr(panel, hook): panel.hook(...)`).
There is no try/except around the hook call, so a raising hook terminates the
loop and the exception propagates out of `toggle_session`. Returns the list of
panel ids whose hook was invoked and the id of the raising panel, if any. -/
def fan_out : List FanPanel → List Nat × Option Nat
  | [] => ([], none)
  | p :: ps =>
    if p.has_hook then
      if p.raises then ([p.pid], some p.pid)
      else
        ((fan_out ps).1.cons p.pid, (fan_out ps).2)
    else fan_out ps

lemma fan_out_no_raise (ps : List FanPanel) (h : ∀ p ∈ ps, p.raises = false) :
    fan_out ps = ((ps.filter (fun p => p.has_hook)).map (fun p => p.pid), none) := by
  induction ps with
  | nil => rfl
  | cons p ps ih =>
    have hp : p.raises = false := h p (by simp)
    have hrest : ∀ q ∈ ps, q.raises = false := fun q hq => h q (by simp [hq])
    rw [fan_out]
    by_cases hh : p.has_hook
    · rw [if_pos hh, if_neg (by simp [hp]), ih hrest]
      simp [List.filter_cons, hh]
    · rw [if_neg hh, ih hrest]
      simp [List.filter_cons, hh]

lemma fan_out_aborts (pre : List FanPanel) (bad : FanPanel) (post : List FanPanel)
    (hpre : ∀ p ∈ pre, p.raises = false) (hhook : bad.has_hook = true)
    (hraise : bad.raises = true) :
    fan_out (pre ++ bad :: post) =
      ((pre.filter (fun p => p.has_hook)).map (fun p => p.pid) ++ [bad.pid],
        some bad.pid) := by
  induction pre with
  | nil => simp [fan_out, hhook, hraise]
  | cons p ps ih =>
    have hp : p.raises = false := hpre p (by simp)
    have hrest : ∀ q ∈ ps, q.raises = false := fun q hq => hpre q (by simp [hq])
    rw [List.cons_append, fan_out]
    by_cases hh : p.has_hook
    · rw [if_pos hh, if_neg (by simp [hp]), ih hrest]
      simp [List.filter_cons, hh]
    · rw [if_neg hh, ih hrest]
      simp [List.filter_cons, hh]

/-- An audio block delivered by one capture callback. -/
abbrev Chunk := List Int

/-- State of the Audio panel (src/adalog/modalities/rec/audio.py): the
recording flag, the capture queue (a `None` entry is the stop sentinel),
the sequence of chunks already written by the writer thread, and whether
the sound file is open. -/
structure AudioState where
  recording : Bool
  queue : List (Option Chunk)
  written : List Chunk
  file_open : Bool
deriving DecidableEq

/-- Audio.start_recording: no-op while already recording; otherwise purge the
queue, open a fresh file and start the writer thread. -/
def audio_start_recording (st : AudioState) : AudioState :=
  if st.recording then st
  else {recording := true, queue := [], written := [], file_open := true}

/-- Audio audio_callback (file-writing part): enqueue a copy of the block
only while recording. -/
def audio_callback (st : AudioState) (c : Chunk) : AudioState :=
  if st.recording then {st with queue := st.queue ++ [some c]} else st

/-- One step of Audio._drain_queue_to_file taken by the writer thread during
the session: pop the head chunk and write it (blocks on an empty queue; a
sentinel ends the loop and is only ever enqueued by `stop_recording`). -/
def writer_step (st : AudioState) : AudioState :=
  match st.queue with
  | some c :: rest => {st with queue := rest, written := st.written ++ [c]}
  | _ => st

/-- The writer loop from the point the sentinel is present: write queued
chunks in FIFO order until the sentinel is reached. -/
def drain_to_sentinel : List (Option Chunk) → List Chunk → List Chunk
  | [], w => w
  | none :: _, w => w
  | some c :: rest, w => drain_to_sentinel rest (w ++ [c])

/-- Audio.stop_recording: no-op when not recording; otherwise clear the flag,
enqueue the `None` sentinel, join the writer thread (which drains every chunk
enqueued before the sentinel) and only then close the file. -/
def audio_stop_recording (st : AudioState) : AudioState :=
  if st.recording = false then st
  else
    {st with recording := false,
             written := drain_to_sentinel (st.queue ++ [none]) st.written,
             queue := [],
             file_open := false}

/-- An event occurring while a session is running: one capture callback
delivering a chunk, or one write step of the writer thread. -/
inductive AudioEvent
  | chunk (c : Chunk)
  | write
deriving DecidableEq

/-- Interleaved execution of callbacks and writer-thread steps. -/
def audio_step (st : AudioState) : AudioEvent → AudioState
  | .chunk c => audio_callback st c
  | .write => writer_step st

/-- The chunks enqueued during a run, in arrival order. -/
def enqueued_chunks (es : List AudioEvent) : List Chunk :=
  es.filterMap (fun e => match e with | .chunk c => some c | .write => none)

/-- Total number of audio frames in a sequence of chunks. -/
def frames (cs : List Chunk) : Nat := (cs.map List.length).sum

lemma drain_to_sentinel_eq (qs : List Chunk) (w : List Chunk) :
    drain_to_sentinel (qs.map some ++ [none]) w = w ++ qs := by
  induction qs generalizing w with
  | nil => simp [drain_to_sentinel]
  | cons c cs ih =>
    rw [List.map_cons, List.cons_append, drain_to_sentinel, ih]
    simp

lemma audio_run_shape (es : List AudioEvent) (w qs : List Chunk) :
    ∃ w2 qs2,
      es.foldl audio_step ⟨true, qs.map some, w, true⟩ = ⟨true, qs2.map some, w2, true⟩ ∧
      w2 ++ qs2 = w ++ qs ++ enqueued_chunks es := by
  induction es generalizing w qs with
  | nil => exact ⟨w, qs, rfl, by simp [enqueued_chunks]⟩
  | cons e es ih =>
    cases e with
    | chunk c =>
      rw [List.foldl_cons]
      have hstep : audio_step ⟨true, qs.map some, w, true⟩ (.chunk c) =
          ⟨true, (qs ++ [c]).map some, w, true⟩ := by
        simp [audio_step, audio_callback]
      rw [hstep]
      obtain ⟨w2, qs2, he, hv⟩ := ih w (qs ++ [c])
      refine ⟨w2, qs2, he, ?_⟩
      rw [hv]
      simp [enqueued_chunks]
    | write =>
      rw [List.foldl_cons]
      cases qs with
      | nil =>
        have hstep : audio_step ⟨true, List.map some [], w, true⟩ .write =
            ⟨true, List.map some [], w, true⟩ := by
          simp [audio_step, writer_step]
        rw [hstep]
        obtain ⟨w2, qs2, he, hv⟩ := ih w []
        refine ⟨w2, qs2, he, ?_⟩
        rw [hv]
        simp [enqueued_chunks]
      | cons c cs =>
        have hstep : audio_step ⟨true, List.map some (c :: cs), w, true⟩ .write =
            ⟨true, cs.map some, w ++ [c], true⟩ := by
          simp [audio_step, writer_step]
        rw [hstep]
        obtain ⟨w2, qs2, he, hv⟩ := ih (w ++ [c]) cs
        refine ⟨w2, qs2, he, ?_⟩
        rw [hv]
        simp [enqueued_chunks]

/-- An OSC message payload after argument decoding in Osc._osc_callback. -/
inductive OscValue
  | nil
  | str (s : Str)
  | int (n : Int)
deriving DecidableEq

/-- Python `str(value)` / empty-for-None conversion used both for store-file
content and for the CSV value column. -/
def osc_value_str : OscValue → Str
  | .nil => []
  | .str s => s
  | .int n => (toString n).data

/-- State of the Osc panel (src/adalog/modalities/rec/osc.py). -/
structure OscPanel where
  store_pfx_text : Str
  session_dir : Option Str
  recording : Bool
deriving DecidableEq

/-- Effects of one OSC callback: store files written as (path, content),
rows appended to osc.csv as (address, value string), and addresses logged
to the recent-address display. -/
structure OscEffects where
  store_writes : List (Str × Str)
  csv_rows : List (Str × Str)
  logged : List Str
deriving DecidableEq

/-- Filename sanitization of Osc._handle_store_message:
`filename.replace("/", "_").replace("\\", "_")` (each pattern is a single
character, so the two replaces act character-wise). -/
def sanitize_filename (s : Str) : Str :=
  s.map (fun c => if c = '/' then '_' else if c = '\\' then '_' else c)

/-- The store filename: sanitized, with `.txt` appended unless already present. -/
def store_filename (s : Str) : Str :=
  if (".txt").data.isSuffixOf (sanitize_filename s) then sanitize_filename s
  else sanitize_filename s ++ (".txt").data

/-- Osc._handle_store_message: requires a session directory; extracts the
filename after `/<store-prefix>/`, rejects an empty name, sanitizes it, adds
`.txt`, and writes the payload to that file in the session directory. -/
def osc_handle_store (p : OscPanel) (address : Str) (value : OscValue)
    (store_pfx : Str) : List (Str × Str) :=
  match p.session_dir with
  | none => []
  | some d =>
    if ('/' :: store_pfx ++ ['/']).isPrefixOf address then
      if address.drop ('/' :: store_pfx ++ ['/']).length = [] then []
      else
        [(py_join d (store_filename (address.drop ('/' :: store_pfx ++ ['/']).length)),
          osc_value_str value)]
    else []

/-- Osc._osc_callback: when the configured store prefix (stripped) is
non-empty and the address starts with `/<store-prefix>/`, the message is
handed to the store path and the callback returns — it is neither logged to
the recent-address display nor appended to osc.csv. Otherwise the address is
logged and, while recording with a session directory set, a row is appended
to osc.csv. -/
def osc_callback (p : OscPanel) (address : Str) (value : OscValue) : OscEffects :=
  if py_strip p.store_pfx_text ≠ [] ∧
      ('/' :: py_strip p.store_pfx_text ++ ['/']).isPrefixOf address then
    { store_writes := osc_handle_store p address value (py_strip p.store_pfx_text),
      csv_rows := [], logged := [] }
  else
    { store_writes := [],
      csv_rows := if p.recording ∧ p.session_dir ≠ none
        then [(address, osc_value_str value)] else [],
      logged := [address] }

/-- Osc.stop_recording: no-op when not recording; otherwise clear the flag
and the session directory (no file is touched). -/
def osc_stop_recording (p : OscPanel) : OscPanel :=
  if p.recording = false then p
  else {p with recording := false, session_dir := none}

/-- State of the Meteo panel (src/adalog/modalities/meteo.py): the recording
flag, the `time_tag` of the last applied sample, and the ghost list of
`time_tag` values of the rows appended to meteo.csv this session. Time tags
are modelled as naturals (pandas timestamps are totally ordered). -/
structure MeteoState where
  recording : Bool
  last_time_tag : Option Nat
  csv_rows : List Nat
deriving DecidableEq

/-- Meteo._poll: a `None` fetch result is discarded; a sample whose
`time_tag` is not strictly newer than the last applied one is discarded;
otherwise the sample is applied (gauges updated, `last_time_tag` advanced)
and, while recording, its row is appended to meteo.csv. -/
def meteo_poll (st : MeteoState) (sample : Option Nat) : MeteoState :=
  match sample with
  | none => st
  | some t =>
    match st.last_time_tag with
    | some l =>
      if t ≤ l then st
      else {st with last_time_tag := some t,
                    csv_rows := if st.recording then st.csv_rows ++ [t] else st.csv_rows}
    | none =>
      {st with last_time_tag := some t,
               csv_rows := if st.recording then st.csv_rows ++ [t] else st.csv_rows}

/-- Invariant of the Meteo poll loop: the appended rows are strictly
increasing and all bounded by the last applied time tag. -/
def MeteoInv (st : MeteoState) : Prop :=
  st.csv_rows.Chain' (· < ·) ∧
    ∀ x ∈ st.csv_rows, ∃ l, st.last_time_tag = some l ∧ x ≤ l

lemma meteo_poll_inv (st : MeteoState) (sample : Option Nat) (h : MeteoInv st) :
    MeteoInv (meteo_poll st sample) := by
  obtain ⟨hchain, hbound⟩ := h
  cases sample with
  | none => exact ⟨hchain, hbound⟩
  | some t =>
    rcases hl : st.last_time_tag with _ | l
    · have hrows : st.csv_rows = [] := by
        cases hr : st.csv_rows with
        | nil => rfl
        | cons x xs =>
          obtain ⟨l2, hl2, _⟩ := hbound x (by rw [hr]; simp)
          rw [hl] at hl2
          exact absurd hl2 (by simp)
      simp only [meteo_poll, hl, hrows]
      constructor
      · cases st.recording <;> simp
      · cases st.recording <;> simp
    · simp only [meteo_poll, hl]
      by_cases hle : t ≤ l
      · rw [if_pos hle]
        exact ⟨hchain, hbound⟩
      · rw [if_neg hle]
        have hlt : l < t := by omega
        have hbnd : ∀ x ∈ st.csv_rows, x ≤ t := by
          intro x hx
          obtain ⟨l2, hl2, hxl⟩ := hbound x hx
          rw [hl] at hl2
          injection hl2 with hl2
          omega
        constructor
        · cases hrec : st.recording
          · simpa using hchain
          · rw [if_pos (by trivial), List.chain'_append]
            refine ⟨hchain, by simp, ?_⟩
            intro x hx y hy
            simp at hy
            rw [← hy]
            have hxm : x ∈ st.csv_rows := by
              cases hr : st.csv_rows with
              | nil => rw [hr] at hx; simp at hx
              | cons a as =>
                rw [hr] at hx
                exact List.mem_of_mem_getLast? hx
            have := hbnd x hxm
            obtain ⟨l2, hl2, hxl⟩ := hbound x hxm
            rw [hl] at hl2
            injection hl2 with hl2
            omega
        · intro x hx
          refine ⟨t, rfl, ?_⟩
          cases hrec : st.recording
          · simp [hrec] at hx
            exact hbnd x hx
          · simp [hrec] at hx
            rcases hx with hx | hx
            · exact hbnd x hx
            · omega

lemma meteo_run_inv (samples : List (Option Nat)) (st : MeteoState)
    (h : MeteoInv st) : MeteoInv (samples.foldl meteo_poll st) := by
  induction samples generalizing st with
  | nil => exact h
  | cons s ss ih =>
    rw [List.foldl_cons]
    exact ih _ (meteo_poll_inv st s h)

lemma toggle_session_start_fields (st : MainWindow) (t : UTCTime)
    (hidle : st.session_running = false) (hu : py_strip st.user_field ≠ []) :
    (toggle_session st t).session_running = true ∧
    (toggle_session st t).dirs_created =
      st.dirs_created ++ [session_path (py_strip st.user_field) t] ∧
    (toggle_session st t).start_calls =
      st.start_calls ++ (st.dock_widgets.filter (fun p => p.has_start)).map
        (fun p => (p.pid, session_path (py_strip st.user_field) t)) := by
  unfold toggle_session
  rw [if_neg (by rintro ⟨_, h⟩; exact hu h), if_pos hidle]
  exact ⟨rfl, rfl, rfl⟩

/-- Concrete initial window for the C1 run: Idle, user "alice", no panels. -/
def c1_init : MainWindow :=
  { session_running := false, user_field := ("alice").data, tags := [],
    current_session_dir := none, dock_widgets := [], dirs_created := [],
    tags_csv_writes := [], start_calls := [], stop_calls := [],
    status_messages := [], chrono_running := false }

/-- A panel exposing both recording hooks (e.g. an Audio instance). -/
def c1_panel : PanelSpec := ⟨0, true, true⟩

/-- Concrete start time for the C1 run. -/
def c1_time : UTCTime := ⟨2025, 10, 12, 9, 30, 0, 123456⟩

/-- C1: the claim says every attached panel receives exactly one
`start_recording` call per start and one `stop_recording` call per stop.
The code violates it: `add_panel` appends the instance to `dock_widgets`
twice (the lines at 288-289 of adalog.py are repeated at 296-297), so after
adding a single panel the start fan-out invokes its hook twice, and the stop
fan-out likewise — evaluated here at the failing input (one added panel, one
start, one stop). -/
theorem c1_attached_panel_called_twice :
    ((toggle_session (add_panel c1_init c1_panel) c1_time).start_calls.map Prod.fst)
        = [0, 0] ∧
    (toggle_session (toggle_session (add_panel c1_init c1_panel) c1_time) c1_time).stop_calls
        = [0, 0] := by
  constructor <;> rfl

/-- Two attached panels whose hooks exist; the first one raises. -/
def c2_panels : List FanPanel := [⟨0, true, true⟩, ⟨1, true, false⟩]

/-- C2 counterexample: with panel 0 raising and panel 1 healthy, the fan-out
invokes only panel 0's hook and the exception escapes the loop (second
component), so the remaining attached panel receives no call — there is no
catch-and-continue in `toggle_session`. -/
theorem c2_counterexample :
    fan_out c2_panels = ([0], some 0) ∧ 1 ∉ (fan_out c2_panels).1 := by
  constructor
  · rfl
  · decide

/-- C2 (amended): if a panel's hook raises during the fan-out, the panels
before it in iteration order have each been invoked once, the raising panel's
hook is invoked once, and the fan-out then aborts: no later panel is invoked
and the exception propagates out of the controller. -/
theorem c2_fanout_aborts_at_raising_panel (pre : List FanPanel) (bad : FanPanel)
    (post : List FanPanel) (hpre : ∀ p ∈ pre, p.raises = false)
    (hhook : bad.has_hook = true) (hraise : bad.raises = true) :
    fan_out (pre ++ bad :: post) =
      ((pre.filter (fun p => p.has_hook)).map (fun p => p.pid) ++ [bad.pid],
        some bad.pid) :=
  fan_out_aborts pre bad post hpre hhook hraise

/-- Witness for the amended C2 theorem at a concrete panel list. -/
theorem c2_fanout_aborts_witness :
    (∀ p ∈ ([⟨0, true, false⟩] : List FanPanel), p.raises = false) ∧
    fan_out ([⟨0, true, false⟩] ++ (⟨1, true, true⟩ : FanPanel) :: [⟨2, true, false⟩]) =
      ((([⟨0, true, false⟩] : List FanPanel).filter (fun p => p.has_hook)).map
          (fun p => p.pid) ++ [(⟨1, true, true⟩ : FanPanel).pid],
        some (⟨1, true, true⟩ : FanPanel).pid) :=
  ⟨by decide, c2_fanout_aborts_at_raising_panel _ _ _ (by decide) rfl rfl⟩

/-- Idle window after a finished session: session stopped, directory still
remembered (stop does not clear `current_session_dir`), no tags. -/
def c3_idle : MainWindow :=
  { session_running := false, user_field := ("alice").data, tags := [],
    current_session_dir := some (("sessions/alice/t").data), dock_widgets := [],
    dirs_created := [], tags_csv_writes := [], start_calls := [], stop_calls := [],
    status_messages := [], chrono_running := false }

/-- C3 counterexample: adding the tag "focus" while Idle mutates the
in-memory tag list (while indeed writing nothing to tags.csv), so the claim's
"in-memory tag set is left unchanged" part is false on the code:
`add_tag_from_input` appends to `self.tags` unconditionally and only the
persistence step checks `session_running`. -/
theorem c3_counterexample :
    c3_idle.tags = [] ∧
    (apply_tag_op c3_idle (TagOp.add (("focus").data))).tags = [("focus").data] ∧
    (apply_tag_op c3_idle (TagOp.add (("focus").data))).tags_csv_writes = [] := by
  refine ⟨rfl, ?_, ?_⟩ <;> rfl

/-- C3 (amended): for every sequence of add-tag/remove-tag operations
performed while no session is active, tags.csv is neither created nor written
(no tag-log write and no directory creation occurs, and the controller stays
Idle); the in-memory tag list, however, is still updated by those operations. -/
theorem c3_idle_tag_ops_write_nothing (ops : List TagOp) (st : MainWindow)
    (h : st.session_running = false) :
    (ops.foldl apply_tag_op st).tags_csv_writes = st.tags_csv_writes ∧
    (ops.foldl apply_tag_op st).dirs_created = st.dirs_created ∧
    (ops.foldl apply_tag_op st).session_running = false := by
  obtain ⟨h1, h2, h3⟩ := tag_ops_idle_no_writes ops st h
  exact ⟨h2, h3, h1⟩

/-- Witness for the amended C3 theorem at a concrete operation sequence. -/
theorem c3_idle_tag_ops_witness :
    c3_idle.session_running = false ∧
    (([TagOp.add (("focus").data), TagOp.remove (("focus").data),
        TagOp.add (("calm").data)].foldl apply_tag_op c3_idle).tags_csv_writes =
      c3_idle.tags_csv_writes ∧
    ([TagOp.add (("focus").data), TagOp.remove (("focus").data),
        TagOp.add (("calm").data)].foldl apply_tag_op c3_idle).dirs_created =
      c3_idle.dirs_created ∧
    ([TagOp.add (("focus").data), TagOp.remove (("focus").data),
        TagOp.add (("calm").data)].foldl apply_tag_op c3_idle).session_running = false) :=
  ⟨rfl, c3_idle_tag_ops_write_nothing _ c3_idle rfl⟩

/-- C4: distinct start timestamps (the `utcnow` microsecond component gives
sub-second resolution) yield distinct session root paths, for any users typed
into the field; and one start transition from Idle records exactly one
directory creation, at the path composed from the stripped user name and the
timestamp. -/
theorem c4_session_dirs_unique (st : MainWindow) (u1 u2 : Str) (t1 t2 : UTCTime)
    (hv1 : ValidUTC t1) (hv2 : ValidUTC t2) (hu1 : u1 ≠ []) (hu2 : u2 ≠ [])
    (hne : t1 ≠ t2) (hidle : st.session_running = false)
    (huser : py_strip st.user_field = u1) :
    session_path u1 t1 ≠ session_path u2 t2 ∧
    (toggle_session st t1).dirs_created = st.dirs_created ++ [session_path u1 t1] := by
  refine ⟨session_path_inj u1 u2 t1 t2 hv1 hv2 hu1 hu2 hne, ?_⟩
  have h := (toggle_session_start_fields st t1 hidle (by rw [huser]; exact hu1)).2.1
  rwa [huser] at h

/-- Concrete Idle window for the C4 witness. -/
def c4_init : MainWindow :=
  { session_running := false, user_field := ("alice").data, tags := [],
    current_session_dir := none, dock_widgets := [], dirs_created := [],
    tags_csv_writes := [], start_calls := [], stop_calls := [],
    status_messages := [], chrono_running := false }

/-- Witness for C4: two starts one microsecond apart give distinct paths. -/
theorem c4_session_dirs_unique_witness :
    ValidUTC ⟨2025, 10, 12, 9, 30, 0, 123456⟩ ∧
    ValidUTC ⟨2025, 10, 12, 9, 30, 0, 123457⟩ ∧
    (session_path (("alice").data) ⟨2025, 10, 12, 9, 30, 0, 123456⟩ ≠
      session_path (("alice").data) ⟨2025, 10, 12, 9, 30, 0, 123457⟩ ∧
    (toggle_session c4_init ⟨2025, 10, 12, 9, 30, 0, 123456⟩).dirs_created =
      c4_init.dirs_created ++
        [session_path (("alice").data) ⟨2025, 10, 12, 9, 30, 0, 123456⟩]) :=
  ⟨by decide, by decide,
    c4_session_dirs_unique c4_init _ _ _ _ (by decide) (by decide) (by decide)
      (by decide) (by decide) rfl rfl⟩

/-- C5: a start request while Idle with a whitespace-only user field changes
nothing except appending the user-visible status message: the controller
stays Idle, no directory is created, no tags row is written and no panel hook
is invoked. -/
theorem c5_empty_user_start_noop (st : MainWindow) (t : UTCTime)
    (hidle : st.session_running = false) (hempty : py_strip st.user_field = []) :
    toggle_session st t =
      {st with status_messages := st.status_messages ++ [empty_user_msg]} := by
  unfold toggle_session
  rw [if_pos ⟨hidle, hempty⟩]

/-- Concrete Idle window with a whitespace-only user field. -/
def c5_init : MainWindow :=
  { session_running := false, user_field := ("   ").data, tags := [],
    current_session_dir := none, dock_widgets := [⟨0, true, true⟩],
    dirs_created := [], tags_csv_writes := [], start_calls := [], stop_calls := [],
    status_messages := [], chrono_running := false }

/-- Witness for C5 at the concrete window. -/
theorem c5_empty_user_start_noop_witness :
    c5_init.session_running = false ∧ py_strip c5_init.user_field = [] ∧
    toggle_session c5_init ⟨2025, 10, 12, 9, 30, 0, 123456⟩ =
      {c5_init with status_messages := c5_init.status_messages ++ [empty_user_msg]} :=
  ⟨rfl, by decide,
    c5_empty_user_start_noop c5_init ⟨2025, 10, 12, 9, 30, 0, 123456⟩ rfl (by decide)⟩

/-- The Audio panel state before a session: not recording, file closed. -/
def c6_idle_audio : AudioState := ⟨false, [], [], false⟩

/-- Final audio state of a session run: start, any interleaving of capture
callbacks and writer steps, then stop. -/
def c6_final (es : List AudioEvent) : AudioState :=
  audio_stop_recording (es.foldl audio_step (audio_start_recording c6_idle_audio))

/-- C6: for every interleaving of capture callbacks and writer-thread steps
during a session, `stop_recording` (sentinel, join, close) writes every chunk
enqueued before it, in FIFO order, before the file is closed: the written
sequence equals the enqueued sequence, the file ends closed, and the file's
frame count equals the number of frames enqueued. -/
theorem c6_audio_stop_writes_all_enqueued (es : List AudioEvent) :
    (c6_final es).written = enqueued_chunks es ∧
    (c6_final es).file_open = false ∧
    (c6_final es).recording = false ∧
    frames (c6_final es).written = frames (enqueued_chunks es) := by
  obtain ⟨w2, qs2, he, hv⟩ := audio_run_shape es [] []
  have hstart : audio_start_recording c6_idle_audio =
      ⟨true, ([] : List Chunk).map some, [], true⟩ := rfl
  have hstop : audio_stop_recording ⟨true, qs2.map some, w2, true⟩ =
      ⟨false, [], w2 ++ qs2, false⟩ := by
    unfold audio_stop_recording
    rw [if_neg (by simp), drain_to_sentinel_eq]
  have hv2 : w2 ++ qs2 = enqueued_chunks es := by simpa using hv
  unfold c6_final
  rw [hstart, he, hstop]
  exact ⟨hv2, rfl, rfl, by rw [show (AudioState.mk false [] (w2 ++ qs2) false).written
    = w2 ++ qs2 from rfl, hv2]⟩

/-- C7: an OSC message to `/<store-prefix>/myfile` carrying the string
"hello", received while a session directory is set, writes the file
`myfile.txt` inside the session directory with content exactly "hello", and
appends no row to osc.csv (and is not even logged to the address display):
the store branch returns before the CSV path. -/
theorem c7_store_message_writes_file (p : OscPanel) (d : Str)
    (hd : p.session_dir = some d) (hsp : py_strip p.store_pfx_text ≠ []) :
    osc_callback p ('/' :: py_strip p.store_pfx_text ++ '/' :: ("myfile").data)
        (OscValue.str (("hello").data)) =
      { store_writes := [(py_join d (("myfile.txt").data), ("hello").data)],
        csv_rows := [], logged := [] } := by
  have hsplit : '/' :: py_strip p.store_pfx_text ++ '/' :: ("myfile").data =
      ('/' :: py_strip p.store_pfx_text ++ ['/']) ++ ("myfile").data := by simp
  have hpre : ('/' :: py_strip p.store_pfx_text ++ ['/']).isPrefixOf
      ('/' :: py_strip p.store_pfx_text ++ '/' :: ("myfile").data) = true := by
    rw [List.isPrefixOf_iff_prefix, hsplit]
    exact ⟨("myfile").data, rfl⟩
  unfold osc_callback
  rw [if_pos ⟨hsp, hpre⟩]
  unfold osc_handle_store
  rw [hd]
  simp only []
  rw [if_pos hpre]
  have hdrop : ('/' :: py_strip p.store_pfx_text ++ '/' :: ("myfile").data).drop
      ('/' :: py_strip p.store_pfx_text ++ ['/']).length = ("myfile").data := by
    rw [hsplit, List.drop_left]
  rw [hdrop, if_neg (by decide), show store_filename (("myfile").data)
    = ("myfile.txt").data from by decide]
  rfl

/-- The Osc panel used for the C7 witness: prefix input " _store "
(stripping to "_store"), session directory set. -/
def c7_panel : OscPanel := ⟨(" _store ").data, some (("sess").data), true⟩

/-- Witness for C7 at the concrete panel. -/
theorem c7_store_message_witness :
    c7_panel.session_dir = some (("sess").data) ∧
    py_strip c7_panel.store_pfx_text ≠ [] ∧
    osc_callback c7_panel
        ('/' :: py_strip c7_panel.store_pfx_text ++ '/' :: ("myfile").data)
        (OscValue.str (("hello").data)) =
      { store_writes := [(py_join (("sess").data) (("myfile.txt").data), ("hello").data)],
        csv_rows := [], logged := [] } :=
  ⟨rfl, by decide, c7_store_message_writes_file c7_panel (("sess").data) rfl (by decide)⟩

/-- C8: the filename extracted from a store address has every `/` and `\`
replaced before it is joined to the session directory, so the store file path
is always the session directory plus a single separator-free final component
(no traversal outside the session directory). -/
theorem c8_store_filename_sanitized (d name : Str) (hd1 : d ≠ [])
    (hd2 : d.getLast? ≠ some '/') :
    ('/' ∉ store_filename name) ∧ ('\\' ∉ store_filename name) ∧
    py_join d (store_filename name) = d ++ '/' :: store_filename name := by
  have hsan : ∀ c ∈ sanitize_filename name, c ≠ '/' ∧ c ≠ '\\' := by
    intro c hc
    obtain ⟨x, _, hmap⟩ := List.mem_map.mp hc
    constructor <;> intro he <;> rw [← hmap] at he <;> revert he <;>
      by_cases h1 : x = '/' <;> by_cases h2 : x = '\\' <;> simp [h1, h2]
  have hmem : ∀ c ∈ store_filename name, c ≠ '/' ∧ c ≠ '\\' := by
    intro c hc
    unfold store_filename at hc
    split at hc
    · exact hsan c hc
    · rw [List.mem_append] at hc
      rcases hc with hc | hc
      · exact hsan c hc
      · simp at hc
        rcases hc with hc | hc | hc | hc <;> rw [hc] <;> exact ⟨by decide, by decide⟩
  refine ⟨fun hc => (hmem _ hc).1 rfl, fun hc => (hmem _ hc).2 rfl, ?_⟩
  unfold py_join
  rw [if_neg hd1, if_neg hd2]

/-- Witness for C8 at a traversal-shaped store name. -/
theorem c8_store_filename_witness :
    ("sess").data ≠ [] ∧ (("sess").data : Str).getLast? ≠ some '/' ∧
    (('/' ∉ store_filename (("../../etc/passwd").data)) ∧
      ('\\' ∉ store_filename (("../../etc/passwd").data)) ∧
      py_join (("sess").data) (store_filename (("../../etc/passwd").data)) =
        ("sess").data ++ '/' :: store_filename (("../../etc/passwd").data)) :=
  ⟨by decide, by decide,
    c8_store_filename_sanitized (("sess").data) (("../../etc/passwd").data)
      (by decide) (by decide)⟩

lemma audio_stop_recording_of_not_recording (st : AudioState)
    (h : st.recording = false) : audio_stop_recording st = st := by
  unfold audio_stop_recording
  rw [if_pos h]

lemma audio_stop_recording_clears_flag (st : AudioState) :
    (audio_stop_recording st).recording = false := by
  unfold audio_stop_recording
  by_cases h : st.recording = false
  · rw [if_pos h]
    exact h
  · rw [if_neg h]

lemma osc_stop_recording_of_not_recording (p : OscPanel)
    (h : p.recording = false) : osc_stop_recording p = p := by
  unfold osc_stop_recording
  rw [if_pos h]

lemma osc_stop_recording_clears_flag (p : OscPanel) :
    (osc_stop_recording p).recording = false := by
  unfold osc_stop_recording
  by_cases h : p.recording = false
  · rw [if_pos h]
    exact h
  · rw [if_neg h]

/-- C9: `stop_recording` is idempotent on the panels: calling it when the
panel is not recording is a no-op (the guard `if not self.recording: return`
fires before any file or writer access, so nothing is raised and no state or
file changes), and a second consecutive call after any first call leaves the
state — including the written file contents — exactly as the first call did. -/
theorem c9_stop_recording_idempotent (a a2 : AudioState) (o o2 : OscPanel)
    (ha : a.recording = false) (ho : o.recording = false) :
    audio_stop_recording a = a ∧ osc_stop_recording o = o ∧
    audio_stop_recording (audio_stop_recording a2) = audio_stop_recording a2 ∧
    osc_stop_recording (osc_stop_recording o2) = osc_stop_recording o2 :=
  ⟨audio_stop_recording_of_not_recording a ha,
   osc_stop_recording_of_not_recording o ho,
   audio_stop_recording_of_not_recording _ (audio_stop_recording_clears_flag a2),
   osc_stop_recording_of_not_recording _ (osc_stop_recording_clears_flag o2)⟩

/-- Witness for C9 at concrete panel states (a2 mid-recording, o2 recording). -/
theorem c9_stop_recording_idempotent_witness :
    (AudioState.mk false [] [[1, 2]] false).recording = false ∧
    (OscPanel.mk (("_store").data) none false).recording = false ∧
    (audio_stop_recording ⟨false, [], [[1, 2]], false⟩ = ⟨false, [], [[1, 2]], false⟩ ∧
      osc_stop_recording ⟨("_store").data, none, false⟩ = ⟨("_store").data, none, false⟩ ∧
      audio_stop_recording (audio_stop_recording ⟨true, [some [3]], [], true⟩) =
        audio_stop_recording ⟨true, [some [3]], [], true⟩ ∧
      osc_stop_recording (osc_stop_recording ⟨("_store").data, some (("d").data), true⟩) =
        osc_stop_recording ⟨("_store").data, some (("d").data), true⟩) :=
  ⟨rfl, rfl,
    c9_stop_recording_idempotent ⟨false, [], [[1, 2]], false⟩ ⟨true, [some [3]], [], true⟩
      ⟨("_store").data, none, false⟩ ⟨("_store").data, some (("d").data), true⟩ rfl rfl⟩

/-- C10: starting from a fresh session CSV (empty row list, any remembered
`last_time_tag`, recording or not), any sequence of poll results appends a
row only when its `time_tag` strictly exceeds the previously applied one, so
the `time_tag` column of meteo.csv is strictly increasing and duplicate-free. -/
theorem c10_meteo_rows_strictly_increasing (w : Option Nat) (rec : Bool)
    (samples : List (Option Nat)) :
    ((samples.foldl meteo_poll ⟨rec, w, []⟩).csv_rows).Chain' (· < ·) ∧
    ((samples.foldl meteo_poll ⟨rec, w, []⟩).csv_rows).Nodup := by
  have hinv := meteo_run_inv samples ⟨rec, w, []⟩ ⟨by simp, by simp⟩
  obtain ⟨hchain, _⟩ := hinv
  refine ⟨hchain, ?_⟩
  exact (List.chain'_iff_pairwise.mp hchain).imp fun h => ne_of_lt h

end Adalog
